import Mathlib

/-!
Verification of the Art Studio Companion backend (Flask + SQLAlchemy).
The store functions of `app/tools/*.py` are shallowly embedded over explicit
list-based database states.  Python strings are modelled as `List Char`,
SQL `Float` quantities as `ℚ` (the code only builds and compares decimal
literals, so rationals are an exact model of the comparisons involved),
`datetime` timestamps as `Nat` tags, and JSON-encoded text columns by their
decoded values.  An exception raised inside a function body is modelled by
an `Option String` argument injected at the commit point: `some e` means an
exception with string representation `e` is raised there.
-/

namespace ArtStudio

/-- Python `str.lower()` on a string modelled as a character list. -/
def lowerStr (s : List Char) : List Char := s.map Char.toLower

/-- Python substring test `needle in hay` on character lists. -/
def containsSub (needle : List Char) : List Char → Bool
  | [] => needle.isEmpty
  | c :: t => needle.isPrefixOf (c :: t) || containsSub needle t

/-- Python truthiness of an optional string: `None` and `""` are falsy. -/
def strTruthy : Option (List Char) → Bool
  | none => false
  | some s => !s.isEmpty

/-- The `Supply` row of `app/models/database.py` (columns relevant to the tools;
`created_at` and `image_path` are never read by the embedded functions). -/
structure Supply where
  id : Nat
  name : List Char
  brand : Option (List Char)
  category : Option String
  color : Option String
  size : Option String
  quantity : ℚ
  unit : String
  notes : Option String
  updated_at : Nat
deriving DecidableEq

/-- Function `Supply.get_status` of `app/models/database.py`: color-coded status
based on quantity.  The decimal constants 0.5 and 0.25 of the source are
written `mkRat 1 2` and `mkRat 1 4`. -/
def Supply.get_status (s : Supply) : String :=
  if s.quantity ≥ mkRat 1 2 then "green"
  else if s.quantity ≥ mkRat 1 4 then "yellow"
  else "red"

/-- A materials-list entry of a project, as consumed by
`generate_shopping_list`: either a JSON object (read via
`material.get("name", "")` plus an optional category) or a bare string
(read via `str(material)`). -/
inductive MaterialEntry where
  | obj (name : List Char) (category : Option String)
  | str (s : List Char)
deriving DecidableEq

/-- The name extracted from a materials entry by `generate_shopping_list`. -/
def MaterialEntry.itemName : MaterialEntry → List Char
  | .obj n _ => n
  | .str s => s

/-- The lowercase inventory key of `generate_shopping_list`
(`app/tools/project_filesaver.py`): the f-string of name, an underscore and brand,
lowercased, when the brand is truthy; the lowercased name alone otherwise. -/
def supplyKey (s : Supply) : List Char :=
  if strTruthy s.brand then lowerStr (s.name ++ [Char.ofNat 95] ++ s.brand.getD [])
  else lowerStr s.name

/-- Insertion into a Python `dict` modelled as an association list: an
existing key keeps its position and gets the new value, a new key is
appended. -/
def insertKeyed (m : List (List Char × Supply)) (k : List Char) (v : Supply) :
    List (List Char × Supply) :=
  match m with
  | [] => [(k, v)]
  | (k', v') :: rest =>
      if k' = k then (k', v) :: rest else (k', v') :: insertKeyed rest k v

/-- The `supply_map` dict built by `generate_shopping_list` over the full
inventory, in iteration order. -/
def buildSupplyMap (supplies : List Supply) : List (List Char × Supply) :=
  supplies.foldl (fun m s => insertKeyed m (supplyKey s) s) []

/-- The match test of `generate_shopping_list`:
`material_lower in key or key in material_lower`. -/
def materialMatches (mlower key : List Char) : Bool :=
  containsSub mlower key || containsSub key mlower

/-- The inventory search of `generate_shopping_list`: the first entry of the
supply map whose key matches, if any. -/
def findMatch (mlower : List Char) : List (List Char × Supply) → Option Supply
  | [] => none
  | (k, s) :: rest =>
      if materialMatches mlower k then some s else findMatch mlower rest

/-- An entry of the `shopping_list` produced by `generate_shopping_list`.
The source emits a dict with keys item/reason/current_quantity/brand for
low-stock items, and item/reason/current_quantity (no brand key, modelled as
`none`) for items not in inventory. -/
structure ShoppingItem where
  item : List Char
  reason : String
  current_quantity : ℚ
  brand : Option (List Char)
deriving DecidableEq

/-- An entry of the `already_have` list produced by
`generate_shopping_list`. -/
structure HaveItem where
  item : List Char
  quantity : ℚ
  brand : Option (List Char)
deriving DecidableEq

/-- The per-material loop of `generate_shopping_list`
(`app/tools/project_filesaver.py`, lines 355-389): for each material, look
up the first matching supply; a match with quantity < 0.25 goes to the
shopping list with reason "low stock", a match with quantity ≥ 0.25 goes to
the already-have list, and no match goes to the shopping list with reason
"not in inventory" and current_quantity 0.  Both output lists are in
materials order, as the appending loop produces. -/
def reconcileMaterials (smap : List (List Char × Supply)) :
    List MaterialEntry → List ShoppingItem × List HaveItem
  | [] => ([], [])
  | m :: rest =>
      match findMatch (lowerStr m.itemName) smap with
      | some found =>
          if found.quantity < mkRat 1 4 then
            (⟨m.itemName, "low stock", found.quantity, found.brand⟩ ::
              (reconcileMaterials smap rest).1, (reconcileMaterials smap rest).2)
          else
            ((reconcileMaterials smap rest).1,
              ⟨m.itemName, found.quantity, found.brand⟩ ::
                (reconcileMaterials smap rest).2)
      | none =>
          (⟨m.itemName, "not in inventory", 0, none⟩ ::
            (reconcileMaterials smap rest).1, (reconcileMaterials smap rest).2)

/-- Function `generate_shopping_list` on a project whose materials list parsed to
`materials`, against inventory `supplies`: the shopping list and the
already-have list.  (The surrounding project lookup, JSON decoding and the
derived counts/budget passthrough of the result dict are handled where the
respective claims need them.) -/
def generate_shopping_list (materials : List MaterialEntry)
    (supplies : List Supply) : List ShoppingItem × List HaveItem :=
  reconcileMaterials (buildSupplyMap supplies) materials

/-- Result of a store function: `ok` mirrors a success dict, `err`
mirrors the generic failure dict carrying `success: False` and the
exception text `str(e)`.  There is no other failure shape. -/
inductive ToolResult (α : Type) where
  | ok (payload : α)
  | err (error : String)
deriving DecidableEq

/-- Query `db.query(Supply).filter(Supply.id == supply_id).first()`: the first
row with the given id, if any. -/
def lookupSupply (db : List Supply) (sid : Nat) : Option Supply :=
  match db with
  | [] => none
  | s :: rest => if s.id = sid then some s else lookupSupply rest sid

/-- Committing an ORM mutation of the row with primary key `sid`: every
row with that id now reads as the mutated object. -/
def replaceSupply (db : List Supply) (sid : Nat) (s' : Supply) :
    List Supply :=
  db.map (fun t => if t.id = sid then s' else t)

/-- Function `add_supply` of `app/tools/supply_inventory.py`.  `exc` injects an
exception raised inside the `try` block (at commit), `newId` is the
autoincrement primary key, `now` the `datetime.utcnow()` tag.  The quantity
argument is stored as given — the function performs no clamping. -/
def add_supply (exc : Option String) (newId : Nat) (name : List Char)
    (category : Option String) (brand : Option (List Char))
    (color : Option String) (size : Option String) (quantity : ℚ)
    (unit : String) (notes : Option String) (now : Nat) (db : List Supply) :
    List Supply × ToolResult Supply :=
  let supply : Supply :=
    ⟨newId, name, brand, category, color, size, quantity, unit, notes, now⟩
  match exc with
  | some e => (db, .err e)
  | none => (db ++ [supply], .ok supply)

/-- Function `update_supply` of `app/tools/supply_inventory.py` (the `kwargs`
passthrough for other columns is omitted; the claims concern the three
named fields).  A provided quantity is stored as `max(0, min(1, quantity))`.
On an injected exception the transaction is rolled back: the returned
state is the input state. -/
def update_supply (exc : Option String) (sid : Nat)
    (name : Option (List Char)) (quantity : Option ℚ)
    (notes : Option String) (now : Nat) (db : List Supply) :
    List Supply × ToolResult Supply :=
  match lookupSupply db sid with
  | none => (db, .err "Supply not found")
  | some supply =>
      let s1 := match name with
        | none => supply
        | some n => { supply with name := n }
      let s2 := match quantity with
        | none => s1
        | some q => { s1 with quantity := max 0 (min 1 q) }
      let s3 := match notes with
        | none => s2
        | some nt => { s2 with notes := nt }
      let s4 := { s3 with updated_at := now }
      match exc with
      | some e => (db, .err e)
      | none => (replaceSupply db sid s4, .ok s4)

/-- A `SupplyUsage` row of `app/models/database.py`. -/
structure SupplyUsage where
  supply_id : Nat
  project_id : Option Nat
  quantity_used : ℚ
  used_at : Nat
deriving DecidableEq

/-- The two low-stock alert messages `use_supply` may attach (the exact
f-string texts carry no further structure). -/
inductive StatusAlert where
  | runningLow
  | almostEmpty
deriving DecidableEq

/-- The success payload of `use_supply`: the updated supply,
`usage_recorded`, `previous_quantity` and `status_alert`. -/
structure UseSupplyOk where
  supply : Supply
  usage_recorded : ℚ
  previous_quantity : ℚ
  status_alert : Option StatusAlert
deriving DecidableEq

/-- Function `use_supply` of `app/tools/supply_inventory.py`: reduces the quantity
to `max(0, quantity - amount_used)` (0.25 and 0.1 written as `mkRat`),
records a usage row, and reports the previous quantity.  On an injected
exception the rollback discards both the supply mutation and the pending
usage row. -/
def use_supply (exc : Option String) (sid : Nat) (amount_used : ℚ)
    (project_id : Option Nat) (now : Nat) (supplies : List Supply)
    (usages : List SupplyUsage) :
    (List Supply × List SupplyUsage) × ToolResult UseSupplyOk :=
  match lookupSupply supplies sid with
  | none => ((supplies, usages), .err "Supply not found")
  | some supply =>
      let old_quantity := supply.quantity
      let s' := { supply with
        quantity := max 0 (supply.quantity - amount_used), updated_at := now }
      let usage : SupplyUsage := ⟨sid, project_id, amount_used, now⟩
      match exc with
      | some e => ((supplies, usages), .err e)
      | none =>
          let alert : Option StatusAlert :=
            if s'.quantity < mkRat 1 4 ∧ mkRat 1 4 ≤ old_quantity then
              some .runningLow
            else if s'.quantity < mkRat 1 10 then some .almostEmpty
            else none
          ((replaceSupply supplies sid s', usages ++ [usage]),
            .ok ⟨s', amount_used, old_quantity, alert⟩)

/-- Function `get_supply_by_id` of `app/tools/supply_inventory.py`: a read-only
lookup; a missing id yields the same generic failure shape with the text
"Supply not found". -/
def get_supply_by_id (exc : Option String) (db : List Supply) (sid : Nat) :
    ToolResult Supply :=
  match exc with
  | some e => .err e
  | none =>
      match lookupSupply db sid with
      | some s => .ok s
      | none => .err "Supply not found"

/-- The SQL `ORDER BY Supply.quantity, Supply.category` comparison used by
`get_low_stock_supplies` (NULL categories sort first, as in SQLite ASC). -/
def lowStockOrder (a b : Supply) : Bool :=
  decide (a.quantity < b.quantity) ||
    (decide (a.quantity = b.quantity) &&
      match a.category, b.category with
      | none, _ => true
      | some _, none => false
      | some x, some y => decide (x ≤ y))

/-- Stable insertion into a list sorted by `le`, modelling the SQL sort. -/
def insertSorted (le : Supply → Supply → Bool) (x : Supply) :
    List Supply → List Supply
  | [] => [x]
  | y :: t => if le x y then x :: y :: t else y :: insertSorted le x t

/-- Stable sort of the selected rows, modelling the SQL `ORDER BY`. -/
def sortSupplies (le : Supply → Supply → Bool) : List Supply → List Supply
  | [] => []
  | x :: t => insertSorted le x (sortSupplies le t)

/-- An entry of the shopping-suggestion list of `get_low_stock_supplies`:
urgency is "critical" below quantity 0.1 and "low" otherwise. -/
structure LowStockItem where
  name : List Char
  brand : Option (List Char)
  category : Option String
  current_quantity : ℚ
  urgency : String
deriving DecidableEq

/-- Function `get_low_stock_supplies` of `app/tools/supply_inventory.py`: selects
the rows with `quantity <= threshold` (the Python default argument is 0.25,
passed here as `mkRat 1 4` by callers using the default), ordered by
quantity then category, together with the derived shopping-suggestion
entries.  (The by-category grouping of the result dict is a regrouping of
the same rows and is not separately modelled.) -/
def get_low_stock_supplies (threshold : ℚ) (db : List Supply) :
    List Supply × List LowStockItem :=
  let selected := sortSupplies lowStockOrder
    (db.filter (fun s => s.quantity ≤ threshold))
  (selected, selected.map (fun s =>
    ⟨s.name, s.brand, s.category, s.quantity,
      if s.quantity < mkRat 1 10 then "critical" else "low"⟩))

/-- A `Project` row of `app/models/database.py` (columns read or written by
the embedded functions; `materials_list` and `steps` are JSON text columns
modelled by their decoded values, with `none` for SQL NULL). -/
structure Project where
  id : Nat
  title : String
  description : Option String
  status : String
  medium : Option String
  style : Option String
  estimated_budget : Option ℚ
  actual_budget : Option ℚ
  materials_list : Option (List MaterialEntry)
  steps : Option String
  notes : Option String
  updated_at : Nat
  completed_at : Option Nat
deriving DecidableEq

/-- Query `db.query(Project).filter(Project.id == project_id).first()`. -/
def lookupProject (db : List Project) (pid : Nat) : Option Project :=
  match db with
  | [] => none
  | p :: rest => if p.id = pid then some p else lookupProject rest pid

/-- Committing an ORM mutation of the project row with primary key `pid`. -/
def replaceProject (db : List Project) (pid : Nat) (p' : Project) :
    List Project :=
  db.map (fun t => if t.id = pid then p' else t)

/-- Function `update_project` of `app/tools/project_filesaver.py` (the `kwargs`
passthrough for other columns is omitted).  When a status is provided, the
old status is read just before the assignment; `completed_at` is set to
`now` exactly when the new status is "completed" and the old one was not. -/
def update_project (exc : Option String) (pid : Nat) (title : Option String)
    (description : Option String) (status : Option String)
    (materials_list : Option (List MaterialEntry)) (steps : Option String)
    (notes : Option String) (actual_budget : Option ℚ) (now : Nat)
    (db : List Project) : List Project × ToolResult Project :=
  match lookupProject db pid with
  | none => (db, .err "Project not found")
  | some project =>
      let p1 := match title with
        | none => project
        | some t => { project with title := t }
      let p2 := match description with
        | none => p1
        | some d => { p1 with description := some d }
      let p3 := match status with
        | none => p2
        | some st =>
            let old_status := p2.status
            let p' := { p2 with status := st }
            if st = "completed" ∧ old_status ≠ "completed" then
              { p' with completed_at := some now }
            else p'
      let p4 := match materials_list with
        | none => p3
        | some ml => { p3 with materials_list := some ml }
      let p5 := match steps with
        | none => p4
        | some st => { p4 with steps := some st }
      let p6 := match notes with
        | none => p5
        | some nt => { p5 with notes := some nt }
      let p7 := match actual_budget with
        | none => p6
        | some ab => { p6 with actual_budget := some ab }
      let p8 := { p7 with updated_at := now }
      match exc with
      | some e => (db, .err e)
      | none => (replaceProject db pid p8, .ok p8)

/-- A decoded entry of the `progress_images` JSON column: path, optional
description and the `added_at` timestamp. -/
structure ProgressImage where
  path : String
  description : Option String
  added_at : Nat
deriving DecidableEq

/-- A `PortfolioPiece` row of `app/models/database.py` (columns read or
written by the embedded functions; `progress_images` is a JSON text column
modelled by its decoded list, with `[]` for NULL or undecodable text, as
`add_progress_image` treats both). -/
structure PortfolioPiece where
  id : Nat
  title : String
  description : Option String
  project_id : Option Nat
  status : String
  medium : Option String
  dimensions : Option String
  image_path : Option String
  thumbnail_path : Option String
  progress_images : List ProgressImage
  updated_at : Nat
  completed_at : Option Nat
deriving DecidableEq

/-- Query `db.query(PortfolioPiece).filter(PortfolioPiece.id == piece_id).first()`. -/
def lookupPiece (db : List PortfolioPiece) (pid : Nat) :
    Option PortfolioPiece :=
  match db with
  | [] => none
  | p :: rest => if p.id = pid then some p else lookupPiece rest pid

/-- Committing an ORM mutation of the piece row with primary key `pid`. -/
def replacePiece (db : List PortfolioPiece) (pid : Nat)
    (p' : PortfolioPiece) : List PortfolioPiece :=
  db.map (fun t => if t.id = pid then p' else t)

/-- Function `update_portfolio_piece` of `app/tools/portfolio_storehouse.py` (the
`kwargs` passthrough and the image-file copy branch, which performs file
I/O, are omitted; the claims concern the status transition).  As in
`update_project`, `completed_at` is set to `now` exactly when the new
status is "completed" and the old one was not. -/
def update_portfolio_piece (exc : Option String) (pieceId : Nat)
    (title : Option String) (description : Option String)
    (status : Option String) (now : Nat) (db : List PortfolioPiece) :
    List PortfolioPiece × ToolResult PortfolioPiece :=
  match lookupPiece db pieceId with
  | none => (db, .err "Portfolio piece not found")
  | some piece =>
      let p1 := match title with
        | none => piece
        | some t => { piece with title := t }
      let p2 := match description with
        | none => p1
        | some d => { p1 with description := some d }
      let p3 := match status with
        | none => p2
        | some st =>
            let old_status := p2.status
            let p' := { p2 with status := st }
            if st = "completed" ∧ old_status ≠ "completed" then
              { p' with completed_at := some now }
            else p'
      let p4 := { p3 with updated_at := now }
      match exc with
      | some e => (db, .err e)
      | none => (replacePiece db pieceId p4, .ok p4)

/-- Function `add_progress_image` of `app/tools/portfolio_storehouse.py`.
`imageExists` models the `os.path.exists` gate on the input path and
`progressPath` the destination path of the copied file (the copy itself is
file I/O outside the embedding).  The decoded progress list is appended to,
and a piece whose status is "sketch" is advanced to "wip"; any other status
is left unchanged.  The success payload carries the updated piece and the
`progress_count`. -/
def add_progress_image (exc : Option String) (imageExists : Bool)
    (pieceId : Nat) (progressPath : String) (description : Option String)
    (now : Nat) (db : List PortfolioPiece) :
    List PortfolioPiece × ToolResult (PortfolioPiece × Nat) :=
  if imageExists = false then (db, .err "Image file not found")
  else
    match lookupPiece db pieceId with
    | none => (db, .err "Portfolio piece not found")
    | some piece =>
        let progress_images :=
          piece.progress_images ++ [⟨progressPath, description, now⟩]
        let p1 := { piece with
          progress_images := progress_images, updated_at := now }
        let p2 := if p1.status = "sketch" then { p1 with status := "wip" }
          else p1
        match exc with
        | some e => (db, .err e)
        | none =>
            (replacePiece db pieceId p2, .ok (p2, progress_images.length))

/-- A `StylePreference` row of `app/models/database.py`. -/
structure StylePreference where
  category : String
  value : String
  confidence : ℚ
  source : String
deriving DecidableEq

/-- Function `save_style_preference` of `app/tools/pinterest_inspiration.py` on the
style-preference table in row order: the first row with the same
(category, value) has its confidence raised to
`min(1.0, confidence + 0.1)` (0.1 written `mkRat 1 10`); if no row
matches, a new row with the given confidence and source is appended. -/
def save_style_preference (category value : String) (confidence : ℚ)
    (source : String) : List StylePreference → List StylePreference
  | [] => [⟨category, value, confidence, source⟩]
  | r :: rest =>
      if r.category = category ∧ r.value = value then
        { r with confidence := min 1 (r.confidence + mkRat 1 10) } :: rest
      else r :: save_style_preference category value confidence source rest

/-- The number of rows for a given (category, value) pair. -/
def countPref (category value : String) (rows : List StylePreference) :
    Nat :=
  (rows.filter (fun r =>
    decide (r.category = category) && decide (r.value = value))).length

/-- The first row for a given (category, value) pair, as
`query.filter(...).first()` returns it. -/
def firstPref (category value : String) :
    List StylePreference → Option StylePreference
  | [] => none
  | r :: rest =>
      if r.category = category ∧ r.value = value then some r
      else firstPref category value rest

/-- A found row's id is the id it was looked up by. -/
theorem lookupSupply_id (db : List Supply) (sid : Nat) (s : Supply)
    (hs : lookupSupply db sid = some s) : s.id = sid := by
  induction db with
  | nil => cases hs
  | cons t rest ih =>
      simp only [lookupSupply] at hs
      by_cases ht : t.id = sid
      · rw [if_pos ht] at hs
        injection hs with hs
        rw [← hs]
        exact ht
      · rw [if_neg ht] at hs
        exact ih hs

/-- After committing a mutation of the looked-up row, the lookup returns
the mutated row. -/
theorem lookupSupply_replace (db : List Supply) (sid : Nat) (s s' : Supply)
    (hs : lookupSupply db sid = some s) (hid : s'.id = sid) :
    lookupSupply (replaceSupply db sid s') sid = some s' := by
  induction db with
  | nil => cases hs
  | cons t rest ih =>
      simp only [lookupSupply] at hs
      simp only [replaceSupply, List.map_cons]
      by_cases ht : t.id = sid
      · rw [if_pos ht]
        simp only [lookupSupply]
        rw [if_pos hid]
      · rw [if_neg ht]
        simp only [lookupSupply]
        rw [if_neg ht]
        rw [if_neg ht] at hs
        exact ih hs

/-- C4: the supply status derivation is a pure function of quantity with
exact boundaries: quantity ≥ 0.5 maps to green (plenty), 0.25 ≤ quantity < 0.5
maps to yellow (low), quantity < 0.25 maps to red (critical). -/
theorem C4_status_boundaries (s : Supply) :
    (mkRat 1 2 ≤ s.quantity → s.get_status = "green") ∧
    (mkRat 1 4 ≤ s.quantity ∧ s.quantity < mkRat 1 2 → s.get_status = "yellow") ∧
    (s.quantity < mkRat 1 4 → s.get_status = "red") := by
  refine ⟨fun h => ?_, fun h => ?_, fun h => ?_⟩
  · simp only [Supply.get_status, ge_iff_le]
    rw [if_pos h]
  · have h2 : ¬ ((mkRat 1 2 : ℚ) ≤ s.quantity) := not_le.mpr h.2
    simp only [Supply.get_status, ge_iff_le]
    rw [if_neg h2, if_pos h.1]
  · have h2 : ¬ ((mkRat 1 2 : ℚ) ≤ s.quantity) :=
      not_le.mpr (h.trans_le (by decide))
    have h4 : ¬ ((mkRat 1 4 : ℚ) ≤ s.quantity) := not_le.mpr h
    simp only [Supply.get_status, ge_iff_le]
    rw [if_neg h2, if_neg h4]

/-- C4 witness: the boundary values 0.5, 0.49 and 0.24 are classified
green, yellow and red respectively. -/
theorem C4_status_boundaries_witness :
    Supply.get_status ⟨1, [], none, none, none, none, mkRat 1 2, "tube", none, 0⟩ = "green" ∧
    Supply.get_status ⟨2, [], none, none, none, none, mkRat 49 100, "tube", none, 0⟩ = "yellow" ∧
    Supply.get_status ⟨3, [], none, none, none, none, mkRat 24 100, "tube", none, 0⟩ = "red" := by
  refine ⟨(C4_status_boundaries _).1 (by decide),
    (C4_status_boundaries _).2.1 ⟨by decide, by decide⟩,
    (C4_status_boundaries _).2.2 (by decide)⟩

/-- The two output lists of the reconciler together hold one entry per
material: every material lands in exactly one of them. -/
theorem reconcileMaterials_length (smap : List (List Char × Supply))
    (ms : List MaterialEntry) :
    (reconcileMaterials smap ms).1.length + (reconcileMaterials smap ms).2.length
      = ms.length := by
  induction ms with
  | nil => rfl
  | cons m rest ih =>
      simp only [reconcileMaterials]
      split
      · split
        · simp only [List.length_cons]
          omega
        · simp only [List.length_cons]
          omega
      · simp only [List.length_cons]
        omega

/-- C1: the reconciler partitions the materials into exactly three classes:
a material whose matched record has quantity < 0.25 appears in the shopping
list with reason "low stock" and the record's quantity and brand; a material
whose matched record has quantity ≥ 0.25 appears in the already-have list;
an unmatched material appears in the shopping list with reason
"not in inventory" and current_quantity 0.  The two lists jointly hold one
entry per material. -/
theorem C1_shopping_list_partition (materials : List MaterialEntry)
    (supplies : List Supply) (m : MaterialEntry) (hm : m ∈ materials) :
    ((generate_shopping_list materials supplies).1.length
        + (generate_shopping_list materials supplies).2.length
        = materials.length) ∧
    (∀ s, findMatch (lowerStr m.itemName) (buildSupplyMap supplies) = some s →
        s.quantity < mkRat 1 4 →
        ShoppingItem.mk m.itemName "low stock" s.quantity s.brand
          ∈ (generate_shopping_list materials supplies).1) ∧
    (∀ s, findMatch (lowerStr m.itemName) (buildSupplyMap supplies) = some s →
        mkRat 1 4 ≤ s.quantity →
        HaveItem.mk m.itemName s.quantity s.brand
          ∈ (generate_shopping_list materials supplies).2) ∧
    (findMatch (lowerStr m.itemName) (buildSupplyMap supplies) = none →
        ShoppingItem.mk m.itemName "not in inventory" 0 none
          ∈ (generate_shopping_list materials supplies).1) := by
  refine ⟨reconcileMaterials_length _ _, ?_, ?_, ?_⟩ <;>
    unfold generate_shopping_list
  · intro s hs hq
    induction materials with
    | nil => cases hm
    | cons m0 rest ih =>
        rcases List.mem_cons.mp hm with rfl | hmem
        · simp only [reconcileMaterials, hs, if_pos hq]
          exact List.mem_cons_self _ _
        · simp only [reconcileMaterials]
          split
          · split
            · exact List.mem_cons_of_mem _ (ih hmem)
            · exact ih hmem
          · exact List.mem_cons_of_mem _ (ih hmem)
  · intro s hs hq
    have hq' : ¬ s.quantity < mkRat 1 4 := not_lt.mpr hq
    induction materials with
    | nil => cases hm
    | cons m0 rest ih =>
        rcases List.mem_cons.mp hm with rfl | hmem
        · simp only [reconcileMaterials, hs, if_neg hq']
          exact List.mem_cons_self _ _
        · simp only [reconcileMaterials]
          split
          · split
            · exact ih hmem
            · exact List.mem_cons_of_mem _ (ih hmem)
          · exact ih hmem
  · intro hs
    induction materials with
    | nil => cases hm
    | cons m0 rest ih =>
        rcases List.mem_cons.mp hm with rfl | hmem
        · simp only [reconcileMaterials, hs]
          exact List.mem_cons_self _ _
        · simp only [reconcileMaterials]
          split
          · split
            · exact List.mem_cons_of_mem _ (ih hmem)
            · exact ih hmem
          · exact List.mem_cons_of_mem _ (ih hmem)

/-- C1 witness: with materials ["Cadmium Yellow", "Round Brush"] and an
inventory holding a "Cadmium Yellow" supply at quantity 0.05, that item is
placed in the buy list with reason "low stock". -/
theorem C1_shopping_list_partition_witness :
    ShoppingItem.mk "Cadmium Yellow".toList "low stock" (mkRat 1 20) none
      ∈ (generate_shopping_list
          [.str "Cadmium Yellow".toList, .str "Round Brush".toList]
          [⟨1, "Cadmium Yellow".toList, none, some "paint", none, none,
            mkRat 1 20, "tube", none, 0⟩]).1 :=
  (C1_shopping_list_partition
      [.str "Cadmium Yellow".toList, .str "Round Brush".toList]
      [⟨1, "Cadmium Yellow".toList, none, some "paint", none, none,
        mkRat 1 20, "tube", none, 0⟩]
      (.str "Cadmium Yellow".toList) (by decide)).2.1
    ⟨1, "Cadmium Yellow".toList, none, some "paint", none, none,
      mkRat 1 20, "tube", none, 0⟩ (by decide) (by decide)

/-- Lemma: `List.isPrefixOf` on characters decides the existence of a completing
suffix. -/
theorem isPrefixOf_eq_true_iff (n h : List Char) :
    n.isPrefixOf h = true ↔ ∃ v, h = n ++ v := by
  induction n generalizing h with
  | nil => simp [List.isPrefixOf]
  | cons a n ih =>
      cases h with
      | nil => simp [List.isPrefixOf]
      | cons b t =>
          simp only [List.isPrefixOf, Bool.and_eq_true, beq_iff_eq, ih,
            List.cons_append, List.cons.injEq]
          constructor
          · rintro ⟨rfl, v, rfl⟩
            exact ⟨v, rfl, rfl⟩
          · rintro ⟨v, rfl, rfl⟩
            exact ⟨rfl, v, rfl⟩

/-- Lemma: `containsSub` decides the Python substring relation `needle in hay`:
it holds exactly when the haystack splits around the needle. -/
theorem containsSub_eq_true_iff (n h : List Char) :
    containsSub n h = true ↔ ∃ u v, h = u ++ n ++ v := by
  induction h with
  | nil =>
      simp only [containsSub, List.isEmpty_iff]
      constructor
      · rintro rfl
        exact ⟨[], [], rfl⟩
      · rintro ⟨u, v, he⟩
        obtain ⟨h1, -⟩ := List.append_eq_nil.mp he.symm
        exact (List.append_eq_nil.mp h1).2
  | cons c t ih =>
      simp only [containsSub, Bool.or_eq_true, isPrefixOf_eq_true_iff, ih]
      constructor
      · rintro (⟨v, he⟩ | ⟨u, v, he⟩)
        · exact ⟨[], v, by simpa using he⟩
        · exact ⟨c :: u, v, by simp [he]⟩
      · rintro ⟨u, v, he⟩
        cases u with
        | nil =>
            left
            exact ⟨v, by simpa using he⟩
        | cons x u =>
            right
            injection he with h1 h2
            exact ⟨u, v, h2⟩

/-- The Boolean match test equals the two-sided substring relation of the
spec: the lowercase material is contained in the key, or the key in the
material. -/
theorem materialMatches_eq_true_iff (ml k : List Char) :
    materialMatches ml k = true ↔
      (∃ u v, k = u ++ ml ++ v) ∨ (∃ u v, ml = u ++ k ++ v) := by
  simp [materialMatches, Bool.or_eq_true, containsSub_eq_true_iff]

/-- Lemma: `findMatch` returns a supply exactly when the map splits into a
non-matching prefix, the returned entry (which matches), and a remainder:
the first matching entry in iteration order wins. -/
theorem findMatch_eq_some_iff (ml : List Char)
    (entries : List (List Char × Supply)) (s : Supply) :
    findMatch ml entries = some s ↔
      ∃ pre k post, entries = pre ++ (k, s) :: post ∧
        materialMatches ml k = true ∧
        ∀ p ∈ pre, materialMatches ml p.1 = false := by
  induction entries with
  | nil =>
      simp only [findMatch]
      constructor
      · rintro ⟨⟩
      · rintro ⟨pre, k, post, he, -, -⟩
        exact absurd he.symm (List.append_ne_nil_of_right_ne_nil pre (by simp))
  | cons e rest ih =>
      obtain ⟨k0, s0⟩ := e
      simp only [findMatch]
      by_cases hm : materialMatches ml k0 = true
      · rw [if_pos hm]
        constructor
        · rintro h
          injection h with h
          subst h
          exact ⟨[], k0, rest, rfl, hm, by simp⟩
        · rintro ⟨pre, k, post, he, hk, hpre⟩
          cases pre with
          | nil =>
              simp only [List.nil_append, List.cons.injEq, Prod.mk.injEq] at he
              rw [he.1.2]
          | cons p pre =>
              simp only [List.cons_append, List.cons.injEq] at he
              have hfalse := hpre p (List.mem_cons_self _ _)
              rw [← he.1] at hfalse
              rw [hm] at hfalse
              cases hfalse
      · rw [if_neg hm]
        rw [ih]
        constructor
        · rintro ⟨pre, k, post, he, hk, hpre⟩
          refine ⟨(k0, s0) :: pre, k, post, by rw [he]; rfl, hk, ?_⟩
          intro p hp
          rcases List.mem_cons.mp hp with rfl | hp'
          · exact Bool.not_eq_true _ ▸ Bool.eq_false_iff.mpr hm
          · exact hpre p hp'
        · rintro ⟨pre, k, post, he, hk, hpre⟩
          cases pre with
          | nil =>
              simp only [List.nil_append, List.cons.injEq, Prod.mk.injEq] at he
              exact absurd (he.1.1 ▸ hk) hm
          | cons p pre =>
              simp only [List.cons_append, List.cons.injEq] at he
              exact ⟨pre, k, post, he.2, hk, fun q hq =>
                hpre q (List.mem_cons_of_mem _ hq)⟩

/-- Every entry of `insertKeyed m k v` is an entry of `m` or the inserted
pair. -/
theorem insertKeyed_mem (m : List (List Char × Supply)) (k : List Char)
    (v : Supply) (e : List Char × Supply) (he : e ∈ insertKeyed m k v) :
    e ∈ m ∨ e = (k, v) := by
  induction m with
  | nil =>
      simp only [insertKeyed, List.mem_singleton] at he
      exact Or.inr he
  | cons p rest ih =>
      obtain ⟨k', v'⟩ := p
      simp only [insertKeyed] at he
      by_cases hk : k' = k
      · rw [if_pos hk] at he
        rcases List.mem_cons.mp he with rfl | h
        · exact Or.inr (by rw [hk])
        · exact Or.inl (List.mem_cons_of_mem _ h)
      · rw [if_neg hk] at he
        rcases List.mem_cons.mp he with rfl | h
        · exact Or.inl (List.mem_cons_self _ _)
        · rcases ih h with h' | h'
          · exact Or.inl (List.mem_cons_of_mem _ h')
          · exact Or.inr h'

/-- Every entry of the supply map pairs the key of some inventory record
with that record. -/
theorem buildSupplyMap_mem (supplies : List Supply)
    (acc : List (List Char × Supply)) (e : List Char × Supply)
    (he : e ∈ supplies.foldl (fun m s => insertKeyed m (supplyKey s) s) acc) :
    e ∈ acc ∨ ∃ s, s ∈ supplies ∧ e = (supplyKey s, s) := by
  induction supplies generalizing acc with
  | nil => exact Or.inl he
  | cons s rest ih =>
      simp only [List.foldl_cons] at he
      rcases ih _ he with hacc | ⟨s', hs', rfl⟩
      · rcases insertKeyed_mem _ _ _ _ hacc with h | rfl
        · exact Or.inl h
        · exact Or.inr ⟨s, List.mem_cons_self _ _, rfl⟩
      · exact Or.inr ⟨s', List.mem_cons_of_mem _ hs', rfl⟩

/-- C2: a material matches an inventory record exactly when the lowercase
material name is a substring of, or contains, the lowercase key built from
the record's name and brand; the first matching entry in iteration order
over the supply map wins, and every map entry is the key-record pair of
some inventory record. -/
theorem C2_matching_rule (mname : List Char) (supplies : List Supply)
    (s : Supply) :
    (findMatch (lowerStr mname) (buildSupplyMap supplies) = some s ↔
      ∃ pre k post, buildSupplyMap supplies = pre ++ (k, s) :: post ∧
        ((∃ u v, k = u ++ lowerStr mname ++ v) ∨
          (∃ u v, lowerStr mname = u ++ k ++ v)) ∧
        ∀ p ∈ pre,
          ¬ ((∃ u v, p.1 = u ++ lowerStr mname ++ v) ∨
              (∃ u v, lowerStr mname = u ++ p.1 ++ v))) ∧
    (∀ e ∈ buildSupplyMap supplies,
      ∃ s', s' ∈ supplies ∧ e = (supplyKey s', s')) := by
  constructor
  · rw [findMatch_eq_some_iff]
    constructor
    · rintro ⟨pre, k, post, he, hk, hpre⟩
      refine ⟨pre, k, post, he, (materialMatches_eq_true_iff _ _).mp hk, ?_⟩
      intro p hp
      rw [← materialMatches_eq_true_iff]
      simp [hpre p hp]
    · rintro ⟨pre, k, post, he, hk, hpre⟩
      refine ⟨pre, k, post, he, (materialMatches_eq_true_iff _ _).mpr hk, ?_⟩
      intro p hp
      have := hpre p hp
      rw [← materialMatches_eq_true_iff] at this
      simpa using this
  · intro e he
    rcases buildSupplyMap_mem supplies [] e he with h | h
    · cases h
    · exact h

/-- C2 witness: against an inventory holding only the "Cadmium Yellow"
supply, the material "Cadmium Yellow" is matched to it, so the map splits
as the characterization states. -/
theorem C2_matching_rule_witness :
    ∃ pre k post,
      buildSupplyMap
          [⟨7, "Cadmium Yellow".toList, none, some "paint", none, none,
            mkRat 1 20, "tube", none, 0⟩]
        = pre ++ (k, ⟨7, "Cadmium Yellow".toList, none, some "paint", none,
            none, mkRat 1 20, "tube", none, 0⟩) :: post ∧
        ((∃ u v, k = u ++ lowerStr "Cadmium Yellow".toList ++ v) ∨
          (∃ u v, lowerStr "Cadmium Yellow".toList = u ++ k ++ v)) ∧
        ∀ p ∈ pre,
          ¬ ((∃ u v, p.1 = u ++ lowerStr "Cadmium Yellow".toList ++ v) ∨
              (∃ u v, lowerStr "Cadmium Yellow".toList = u ++ p.1 ++ v)) :=
  (C2_matching_rule "Cadmium Yellow".toList
      [⟨7, "Cadmium Yellow".toList, none, some "paint", none, none,
        mkRat 1 20, "tube", none, 0⟩]
      ⟨7, "Cadmium Yellow".toList, none, some "paint", none, none,
        mkRat 1 20, "tube", none, 0⟩).1.mp (by decide)

/-- A found project row's id is the id it was looked up by. -/
theorem lookupProject_id (db : List Project) (pid : Nat) (p : Project)
    (hp : lookupProject db pid = some p) : p.id = pid := by
  induction db with
  | nil => cases hp
  | cons t rest ih =>
      simp only [lookupProject] at hp
      by_cases ht : t.id = pid
      · rw [if_pos ht] at hp
        injection hp with hp
        rw [← hp]
        exact ht
      · rw [if_neg ht] at hp
        exact ih hp

/-- After committing a mutation of the looked-up project row, the lookup
returns the mutated row. -/
theorem lookupProject_replace (db : List Project) (pid : Nat)
    (p p' : Project) (hp : lookupProject db pid = some p)
    (hid : p'.id = pid) :
    lookupProject (replaceProject db pid p') pid = some p' := by
  induction db with
  | nil => cases hp
  | cons t rest ih =>
      simp only [lookupProject] at hp
      simp only [replaceProject, List.map_cons]
      by_cases ht : t.id = pid
      · rw [if_pos ht]
        simp only [lookupProject]
        rw [if_pos hid]
      · rw [if_neg ht]
        simp only [lookupProject]
        rw [if_neg ht]
        rw [if_neg ht] at hp
        exact ih hp

/-- A found piece row's id is the id it was looked up by. -/
theorem lookupPiece_id (db : List PortfolioPiece) (pid : Nat)
    (p : PortfolioPiece) (hp : lookupPiece db pid = some p) : p.id = pid := by
  induction db with
  | nil => cases hp
  | cons t rest ih =>
      simp only [lookupPiece] at hp
      by_cases ht : t.id = pid
      · rw [if_pos ht] at hp
        injection hp with hp
        rw [← hp]
        exact ht
      · rw [if_neg ht] at hp
        exact ih hp

/-- After committing a mutation of the looked-up piece row, the lookup
returns the mutated row. -/
theorem lookupPiece_replace (db : List PortfolioPiece) (pid : Nat)
    (p p' : PortfolioPiece) (hp : lookupPiece db pid = some p)
    (hid : p'.id = pid) :
    lookupPiece (replacePiece db pid p') pid = some p' := by
  induction db with
  | nil => cases hp
  | cons t rest ih =>
      simp only [lookupPiece] at hp
      simp only [replacePiece, List.map_cons]
      by_cases ht : t.id = pid
      · rw [if_pos ht]
        simp only [lookupPiece]
        rw [if_pos hid]
      · rw [if_neg ht]
        simp only [lookupPiece]
        rw [if_neg ht]
        rw [if_neg ht] at hp
        exact ih hp

/-- C3 counterexample: `add_supply` performs no clamping, so an initial
quantity of 2 is stored as 2, outside [0,1] — refuting the claim for the
`add_supply` branch. -/
theorem C3_counterexample_add_supply_unclamped :
    ¬ (∀ s ∈ (add_supply none 1 "Gesso".toList (some "paint") none none
        none 2 "tube" none 0 []).1,
        0 ≤ s.quantity ∧ s.quantity ≤ 1) := by
  decide

/-- C3 amended: `update_supply` clamps any provided quantity into [0,1];
`use_supply` never stores a negative quantity, and stays within [0,1]
whenever the prior quantity was at most 1 and `amount_used` is
nonnegative; `add_supply` stores its quantity argument unclamped. -/
theorem C3_amended_quantity_clamping (sid newId now : Nat) (q a : ℚ)
    (name : List Char) (category : Option String) (proj : Option Nat)
    (db : List Supply) (usages : List SupplyUsage) (s : Supply) :
    (∀ s₁, lookupSupply ((update_supply none sid none (some q) none now
        db).1) sid = some s₁ → 0 ≤ s₁.quantity ∧ s₁.quantity ≤ 1) ∧
    (lookupSupply db sid = some s →
      ∀ s₂, lookupSupply ((use_supply none sid a proj now db usages).1.1)
          sid = some s₂ →
        0 ≤ s₂.quantity ∧ (0 ≤ a → s.quantity ≤ 1 → s₂.quantity ≤ 1)) ∧
    Supply.mk newId name none category none none q "piece" none now
      ∈ (add_supply none newId name category none none none q "piece"
          none now db).1 := by
  refine ⟨?_, ?_, ?_⟩
  · intro s₁ h
    cases hls : lookupSupply db sid with
    | none =>
        simp only [update_supply, hls] at h
        exact Option.noConfusion h
    | some supply =>
        simp only [update_supply, hls] at h
        have hrep := lookupSupply_replace db sid supply
          { supply with quantity := max 0 (min 1 q), updated_at := now }
          hls (lookupSupply_id db sid supply hls)
        rw [hrep] at h
        injection h with h
        rw [← h]
        exact ⟨le_max_left _ _, max_le zero_le_one (min_le_left _ _)⟩
  · intro hs s₂ h
    simp only [use_supply, hs] at h
    have hrep := lookupSupply_replace db sid s
      { s with quantity := max 0 (s.quantity - a), updated_at := now }
      hs (lookupSupply_id db sid s hs)
    rw [hrep] at h
    injection h with h
    rw [← h]
    refine ⟨le_max_left _ _, fun ha hq1 => ?_⟩
    exact max_le zero_le_one (le_trans (sub_le_self _ ha) hq1)
  · simp [add_supply]

/-- C3 amended witness: updating a half-full supply to quantity 5 stores
the clamped value max(0, min(1, 5)), inside [0,1]; using 0.1 of it stores
max(0, 0.5 - 0.1), also inside [0,1]. -/
theorem C3_amended_quantity_clamping_witness :
    ((0:ℚ) ≤ max 0 (min 1 5) ∧ max (0:ℚ) (min 1 5) ≤ 1) ∧
    ((0:ℚ) ≤ max 0 (mkRat 1 2 - mkRat 1 10) ∧
      max (0:ℚ) (mkRat 1 2 - mkRat 1 10) ≤ 1) := by
  have h := C3_amended_quantity_clamping 1 9 7 5 (mkRat 1 10)
    "Blue".toList (some "paint") none
    [⟨1, "Blue".toList, none, some "paint", none, none, mkRat 1 2,
      "tube", none, 0⟩] []
    ⟨1, "Blue".toList, none, some "paint", none, none, mkRat 1 2,
      "tube", none, 0⟩
  refine ⟨h.1 ⟨1, "Blue".toList, none, some "paint", none, none,
    max 0 (min 1 5), "tube", none, 7⟩ rfl, ?_⟩
  have h2 := h.2.1 rfl ⟨1, "Blue".toList, none, some "paint", none, none,
    max 0 (mkRat 1 2 - mkRat 1 10), "tube", none, 7⟩ rfl
  exact ⟨h2.1, h2.2 (by decide) (by decide)⟩

/-- C10: for an existing supply, a successful `use_supply` call stores the
quantity max(0, old - amount_used) — never negative — records a usage row
with quantity_used = amount_used, and reports the previous quantity
unchanged in the result. -/
theorem C10_use_supply_semantics (sid now : Nat) (a : ℚ)
    (proj : Option Nat) (db : List Supply) (usages : List SupplyUsage)
    (s : Supply) (hs : lookupSupply db sid = some s) :
    ∃ r, (use_supply none sid a proj now db usages).2 = .ok r ∧
      r.supply.quantity = max 0 (s.quantity - a) ∧
      0 ≤ r.supply.quantity ∧
      r.previous_quantity = s.quantity ∧
      r.usage_recorded = a ∧
      (use_supply none sid a proj now db usages).1.2
        = usages ++ [⟨sid, proj, a, now⟩] ∧
      lookupSupply ((use_supply none sid a proj now db usages).1.1) sid
        = some r.supply := by
  simp only [use_supply, hs]
  refine ⟨_, rfl, rfl, le_max_left _ _, rfl, rfl, trivial, ?_⟩
  exact lookupSupply_replace db sid s
    { s with quantity := max 0 (s.quantity - a), updated_at := now }
    hs (lookupSupply_id db sid s hs)

/-- C10 witness: using 0.1 of a half-full supply succeeds, stores
max(0, 0.5 - 0.1), records the usage row and reports 0.5 as the previous
quantity. -/
theorem C10_use_supply_semantics_witness :
    ∃ r, (use_supply none 1 (mkRat 1 10) (some 4) 7
        [⟨1, "Blue".toList, none, some "paint", none, none, mkRat 1 2,
          "tube", none, 0⟩] []).2 = .ok r ∧
      r.supply.quantity
        = max 0 (Supply.quantity ⟨1, "Blue".toList, none, some "paint",
            none, none, mkRat 1 2, "tube", none, 0⟩ - mkRat 1 10) ∧
      0 ≤ r.supply.quantity ∧
      r.previous_quantity
        = Supply.quantity ⟨1, "Blue".toList, none, some "paint", none,
            none, mkRat 1 2, "tube", none, 0⟩ ∧
      r.usage_recorded = mkRat 1 10 ∧
      (use_supply none 1 (mkRat 1 10) (some 4) 7
        [⟨1, "Blue".toList, none, some "paint", none, none, mkRat 1 2,
          "tube", none, 0⟩] []).1.2 = [] ++ [⟨1, some 4, mkRat 1 10, 7⟩] ∧
      lookupSupply ((use_supply none 1 (mkRat 1 10) (some 4) 7
        [⟨1, "Blue".toList, none, some "paint", none, none, mkRat 1 2,
          "tube", none, 0⟩] []).1.1) 1 = some r.supply :=
  C10_use_supply_semantics 1 7 (mkRat 1 10) (some 4)
    [⟨1, "Blue".toList, none, some "paint", none, none, mkRat 1 2,
      "tube", none, 0⟩] []
    ⟨1, "Blue".toList, none, some "paint", none, none, mkRat 1 2,
      "tube", none, 0⟩ rfl

/-- C5 counterexample: starting from a "planned" project, the update
sequence completed (t=1), planned (t=2), completed (t=3) ends with
completed_at = 3, not the 1 set on the first transition: a later update
that sets status to "completed" again (after leaving it) changes
completed_at, refuting "set exactly once". -/
theorem C5_counterexample_recompletion :
    (lookupProject (update_project none 1 none none (some "completed")
        none none none none 1 [⟨1, "P", none, "planned", none, none, none,
          none, none, none, none, 0, none⟩]).1 1).map Project.completed_at
      = some (some 1) ∧
    (lookupProject (update_project none 1 none none (some "completed")
        none none none none 3 (update_project none 1 none none
        (some "planned") none none none none 2 (update_project none 1 none
        none (some "completed") none none none none 1 [⟨1, "P", none,
        "planned", none, none, none, none, none, none, none, 0,
        none⟩]).1).1).1 1).map Project.completed_at = some (some 3) ∧
    ¬ ((lookupProject (update_project none 1 none none (some "completed")
        none none none none 3 (update_project none 1 none none
        (some "planned") none none none none 2 (update_project none 1 none
        none (some "completed") none none none none 1 [⟨1, "P", none,
        "planned", none, none, none, none, none, none, none, 0,
        none⟩]).1).1).1 1).map Project.completed_at
      = (lookupProject (update_project none 1 none none (some "completed")
        none none none none 1 [⟨1, "P", none, "planned", none, none, none,
          none, none, none, none, 0, none⟩]).1 1).map
          Project.completed_at) := by
  decide

/-- C5 amended: for both projects and portfolio pieces, an update that
sets status to "completed" sets completed_at to the update time exactly
when the entity was not already "completed"; if it was already
"completed", completed_at is left unchanged.  (A sequence that leaves
"completed" and re-enters it therefore sets completed_at again.) -/
theorem C5_amended_completed_at (db : List Project)
    (pdb : List PortfolioPiece) (pid qid now : Nat) (p : Project)
    (pc : PortfolioPiece) (hp : lookupProject db pid = some p)
    (hq : lookupPiece pdb qid = some pc) :
    (p.status = "completed" →
      ∃ p', (update_project none pid none none (some "completed") none
          none none none now db).2 = .ok p' ∧
        p'.completed_at = p.completed_at) ∧
    (p.status ≠ "completed" →
      ∃ p', (update_project none pid none none (some "completed") none
          none none none now db).2 = .ok p' ∧
        p'.completed_at = some now ∧ p'.status = "completed") ∧
    (pc.status = "completed" →
      ∃ pc', (update_portfolio_piece none qid none none (some "completed")
          now pdb).2 = .ok pc' ∧ pc'.completed_at = pc.completed_at) ∧
    (pc.status ≠ "completed" →
      ∃ pc', (update_portfolio_piece none qid none none (some "completed")
          now pdb).2 = .ok pc' ∧
        pc'.completed_at = some now ∧ pc'.status = "completed") := by
  refine ⟨fun hst => ?_, fun hst => ?_, fun hst => ?_, fun hst => ?_⟩
  · simp only [update_project, hp]
    rw [if_neg (by simp [hst])]
    exact ⟨_, rfl, rfl⟩
  · simp only [update_project, hp]
    rw [if_pos (by simp [hst])]
    exact ⟨_, rfl, rfl, rfl⟩
  · simp only [update_portfolio_piece, hq]
    rw [if_neg (by simp [hst])]
    exact ⟨_, rfl, rfl⟩
  · simp only [update_portfolio_piece, hq]
    rw [if_pos (by simp [hst])]
    exact ⟨_, rfl, rfl, rfl⟩

/-- C5 amended witness: re-completing an already-completed project keeps
its completed_at = 2; completing a planned project stamps completed_at
with the update time 5; likewise for portfolio pieces. -/
theorem C5_amended_completed_at_witness :
    (∃ p', (update_project none 1 none none (some "completed") none none
        none none 5 [⟨1, "P", none, "completed", none, none, none, none,
          none, none, none, 0, some 2⟩]).2 = .ok p' ∧
      p'.completed_at = some 2) ∧
    (∃ p', (update_project none 1 none none (some "completed") none none
        none none 5 [⟨1, "Q", none, "planned", none, none, none, none,
          none, none, none, 0, none⟩]).2 = .ok p' ∧
      p'.completed_at = some 5 ∧ p'.status = "completed") ∧
    (∃ pc', (update_portfolio_piece none 1 none none (some "completed") 5
        [⟨1, "A", none, none, "completed", none, none, none, none, [], 0,
          some 2⟩]).2 = .ok pc' ∧ pc'.completed_at = some 2) ∧
    (∃ pc', (update_portfolio_piece none 1 none none (some "completed") 5
        [⟨1, "B", none, none, "wip", none, none, none, none, [], 0,
          none⟩]).2 = .ok pc' ∧
      pc'.completed_at = some 5 ∧ pc'.status = "completed") := by
  refine ⟨?_, ?_, ?_, ?_⟩
  · exact (C5_amended_completed_at
      [⟨1, "P", none, "completed", none, none, none, none, none, none,
        none, 0, some 2⟩]
      [⟨1, "A", none, none, "completed", none, none, none, none, [], 0,
        some 2⟩] 1 1 5 _ _ rfl rfl).1 rfl
  · exact (C5_amended_completed_at
      [⟨1, "Q", none, "planned", none, none, none, none, none, none,
        none, 0, none⟩]
      [⟨1, "B", none, none, "wip", none, none, none, none, [], 0,
        none⟩] 1 1 5 _ _ rfl rfl).2.1 (by decide)
  · exact (C5_amended_completed_at
      [⟨1, "P", none, "completed", none, none, none, none, none, none,
        none, 0, some 2⟩]
      [⟨1, "A", none, none, "completed", none, none, none, none, [], 0,
        some 2⟩] 1 1 5 _ _ rfl rfl).2.2.1 rfl
  · exact (C5_amended_completed_at
      [⟨1, "Q", none, "planned", none, none, none, none, none, none,
        none, 0, none⟩]
      [⟨1, "B", none, none, "wip", none, none, none, none, [], 0,
        none⟩] 1 1 5 _ _ rfl rfl).2.2.2 (by decide)

/-- C7: for an existing portfolio piece, a successful `add_progress_image`
call appends exactly one entry to the decoded progress-image list, advances
a "sketch" piece to "wip", leaves any other status unchanged, and reports a
progress count one larger than before. -/
theorem C7_add_progress_image (db : List PortfolioPiece) (pid now : Nat)
    (path : String) (descr : Option String) (pc : PortfolioPiece)
    (hp : lookupPiece db pid = some pc) :
    ∃ p' n, (add_progress_image none true pid path descr now db).2
        = .ok (p', n) ∧
      p'.progress_images = pc.progress_images ++ [⟨path, descr, now⟩] ∧
      n = pc.progress_images.length + 1 ∧
      (pc.status = "sketch" → p'.status = "wip") ∧
      (pc.status ≠ "sketch" → p'.status = pc.status) ∧
      lookupPiece ((add_progress_image none true pid path descr now db).1)
        pid = some p' := by
  by_cases hst : pc.status = "sketch"
  · simp only [add_progress_image, hp, Bool.true_eq_false, if_false]
    rw [if_pos hst]
    refine ⟨_, _, rfl, rfl, by simp, fun _ => rfl,
      fun hne => absurd hst hne, ?_⟩
    exact lookupPiece_replace db pid pc
      { pc with progress_images := pc.progress_images
          ++ [⟨path, descr, now⟩], updated_at := now, status := "wip" }
      hp (lookupPiece_id db pid pc hp)
  · simp only [add_progress_image, hp, Bool.true_eq_false, if_false]
    rw [if_neg hst]
    refine ⟨_, _, rfl, rfl, by simp, fun hs => absurd hs hst,
      fun _ => rfl, ?_⟩
    exact lookupPiece_replace db pid pc
      { pc with progress_images := pc.progress_images
          ++ [⟨path, descr, now⟩], updated_at := now }
      hp (lookupPiece_id db pid pc hp)

/-- C7 witness: adding a progress image to a sketch piece with one prior
progress image appends the new entry, advances the status to "wip" and
reports a count of 2. -/
theorem C7_add_progress_image_witness :
    ∃ p' n, (add_progress_image none true 1 "p2.png" (some "mid") 9
        [⟨1, "A", none, none, "sketch", none, none, none, none,
          [⟨"p1.png", none, 4⟩], 0, none⟩]).2 = .ok (p', n) ∧
      p'.progress_images = [⟨"p1.png", none, 4⟩]
        ++ [⟨"p2.png", some "mid", 9⟩] ∧
      n = [(⟨"p1.png", none, 4⟩ : ProgressImage)].length + 1 ∧
      ("sketch" = "sketch" → p'.status = "wip") ∧
      ("sketch" ≠ "sketch" → p'.status = "sketch") ∧
      lookupPiece ((add_progress_image none true 1 "p2.png" (some "mid") 9
        [⟨1, "A", none, none, "sketch", none, none, none, none,
          [⟨"p1.png", none, 4⟩], 0, none⟩]).1) 1 = some p' :=
  C7_add_progress_image
    [⟨1, "A", none, none, "sketch", none, none, none, none,
      [⟨"p1.png", none, 4⟩], 0, none⟩] 1 9 "p2.png" (some "mid")
    ⟨1, "A", none, none, "sketch", none, none, none, none,
      [⟨"p1.png", none, 4⟩], 0, none⟩ rfl

/-- When no row matches (category, value), `save_style_preference` creates
exactly one matching row carrying the given confidence, and it is the one
the row-order query finds. -/
theorem save_style_preference_create (c v src : String) (conf : ℚ)
    (rows : List StylePreference) (h0 : countPref c v rows = 0) :
    firstPref c v (save_style_preference c v conf src rows)
        = some ⟨c, v, conf, src⟩ ∧
      countPref c v (save_style_preference c v conf src rows) = 1 := by
  induction rows with
  | nil =>
      constructor
      · simp [save_style_preference, firstPref]
      · simp [save_style_preference, countPref]
  | cons r rest ih =>
      have hr : ¬ (r.category = c ∧ r.value = v) := by
        intro hand
        simp [countPref, List.filter_cons, hand.1, hand.2] at h0
      have h0' : countPref c v rest = 0 := by
        simp only [countPref, List.filter_cons] at h0
        rw [if_neg (by simpa using hr)] at h0
        exact h0
      obtain ⟨h1, h2⟩ := ih h0'
      constructor
      · simp only [save_style_preference]
        rw [if_neg hr]
        simp only [firstPref]
        rw [if_neg hr]
        exact h1
      · simp only [save_style_preference]
        rw [if_neg hr]
        simp only [countPref, List.filter_cons]
        rw [if_neg (by simpa using hr)]
        exact h2

/-- When a row matches (category, value), `save_style_preference` updates
the first matching row's confidence in place, and neither adds nor removes
matching rows. -/
theorem save_style_preference_update (c v src : String) (conf : ℚ)
    (rows : List StylePreference) (r : StylePreference)
    (hr : firstPref c v rows = some r) :
    firstPref c v (save_style_preference c v conf src rows)
        = some { r with confidence := min 1 (r.confidence + mkRat 1 10) } ∧
      countPref c v (save_style_preference c v conf src rows)
        = countPref c v rows := by
  induction rows with
  | nil => cases hr
  | cons r0 rest ih =>
      by_cases hm : r0.category = c ∧ r0.value = v
      · simp only [firstPref] at hr
        rw [if_pos hm] at hr
        injection hr with hr
        subst hr
        constructor
        · simp only [save_style_preference]
          rw [if_pos hm]
          simp only [firstPref]
          rw [if_pos (by exact hm)]
        · simp only [save_style_preference]
          rw [if_pos hm]
          simp only [countPref, List.filter_cons]
          rw [if_pos (by simpa using hm), if_pos (by simpa using hm)]
          simp
      · simp only [firstPref] at hr
        rw [if_neg hm] at hr
        obtain ⟨h1, h2⟩ := ih hr
        constructor
        · simp only [save_style_preference]
          rw [if_neg hm]
          simp only [firstPref]
          rw [if_neg hm]
          exact h1
        · simp only [save_style_preference]
          rw [if_neg hm]
          simp only [countPref, List.filter_cons]
          rw [if_neg (by simpa using hm), if_neg (by simpa using hm)]
          simpa [countPref] using h2

/-- Capping commutes with shifted increments: applying the cap before or
after adding a nonnegative step yields the same capped value. -/
theorem min_one_add_shift (x d : ℚ) (hd : 0 ≤ d) :
    min 1 (min 1 x + d) = min 1 (x + d) := by
  rcases le_total x 1 with hx | hx
  · rw [min_eq_right hx]
  · rw [min_eq_left hx, min_eq_left (by linarith), min_eq_left
      (by linarith)]

/-- C6: starting from a table with no (category, value) row, the first
`save_style_preference` call creates one row and k further identical calls
keep exactly one matching row, whose confidence is
min(1, initial + k * 0.1) — raised 0.1 per call, capped at 1. -/
theorem C6_style_preference_no_duplicates (c v src : String) (conf : ℚ)
    (rows : List StylePreference) (k : Nat)
    (h0 : countPref c v rows = 0) (hc : conf ≤ 1) :
    countPref c v ((save_style_preference c v conf src)^[k + 1] rows)
        = 1 ∧
    ∃ r, firstPref c v ((save_style_preference c v conf src)^[k + 1] rows)
        = some r ∧
      r.confidence = min 1 (conf + (k : ℚ) * mkRat 1 10) ∧
      r.confidence ≤ 1 := by
  induction k with
  | zero =>
      rw [Function.iterate_one]
      obtain ⟨h1, h2⟩ := save_style_preference_create c v src conf rows h0
      refine ⟨h2, _, h1, ?_, ?_⟩
      · show conf = min 1 (conf + (0:ℕ) * mkRat 1 10)
        rw [Nat.cast_zero, zero_mul, add_zero, min_eq_right hc]
      · exact hc
  | succ k ih =>
      rw [Function.iterate_succ_apply']
      obtain ⟨hcount, r, hfirst, hconf, hle⟩ := ih
      obtain ⟨h1, h2⟩ := save_style_preference_update c v src conf _ r
        hfirst
      refine ⟨by rw [h2, hcount], _, h1, ?_, min_le_left _ _⟩
      show min 1 (r.confidence + mkRat 1 10) = _
      rw [hconf, min_one_add_shift _ _ (by decide)]
      congr 1
      push_cast
      ring

/-- C6 witness: three identical calls on an empty table leave exactly one
("mood", "serene") row, with confidence min(1, 0.5 + 2 * 0.1). -/
theorem C6_style_preference_no_duplicates_witness :
    countPref "mood" "serene"
        ((save_style_preference "mood" "serene" (mkRat 1 2) "chat")^[2 + 1]
          []) = 1 ∧
    ∃ r, firstPref "mood" "serene"
        ((save_style_preference "mood" "serene" (mkRat 1 2) "chat")^[2 + 1]
          []) = some r ∧
      r.confidence = min 1 (mkRat 1 2 + ((2 : Nat) : ℚ) * mkRat 1 10) ∧
      r.confidence ≤ 1 :=
  C6_style_preference_no_duplicates "mood" "serene" "chat" (mkRat 1 2)
    [] 2 rfl (by decide)

/-- C8: the embedded store functions all fail through the single generic
shape: an injected exception yields `.err` with the exception text and
leaves the database unchanged (rollback), and missing-entity lookups yield
the same `.err` shape with a message string — not a distinct kind. -/
theorem C8_error_uniform_failure (e : String) (db : List Supply)
    (pdb : List Project) (qdb : List PortfolioPiece)
    (newId sid pid qid now : Nat) (nm : List Char)
    (cat : Option String) (q : ℚ) :
    add_supply (some e) newId nm cat none none none q "piece" none now db
        = (db, .err e) ∧
    get_supply_by_id (some e) db sid = .err e ∧
    (lookupSupply db sid = none →
        get_supply_by_id none db sid = .err "Supply not found") ∧
    (lookupProject pdb pid = none →
        update_project none pid none none none none none none none now pdb
          = (pdb, .err "Project not found")) ∧
    (∀ p, lookupProject pdb pid = some p →
        update_project (some e) pid none none none none none none none now
          pdb = (pdb, .err e)) ∧
    (lookupPiece qdb qid = none →
        update_portfolio_piece none qid none none none now qdb
          = (qdb, .err "Portfolio piece not found")) ∧
    (∀ pc, lookupPiece qdb qid = some pc →
        update_portfolio_piece (some e) qid none none none now qdb
          = (qdb, .err e)) := by
  refine ⟨rfl, rfl, fun h => ?_, fun h => ?_, fun p h => ?_,
    fun h => ?_, fun pc h => ?_⟩
  · simp [get_supply_by_id, h]
  · simp [update_project, h]
  · simp [update_project, h]
  · simp [update_portfolio_piece, h]
  · simp [update_portfolio_piece, h]

/-- C8 witness: an exception "boom" during `add_supply`, a read failure in
`get_supply_by_id`, a missing supply, a missing project, and an exception
during `update_project` all produce the same generic `.err` shape, with
the state returned unchanged. -/
theorem C8_error_uniform_failure_witness :
    add_supply (some "boom") 1 "X".toList none none none none 1 "piece"
        none 0 [] = ([], .err "boom") ∧
    get_supply_by_id (some "boom") [] 1 = .err "boom" ∧
    get_supply_by_id none [] 1 = .err "Supply not found" ∧
    update_project none 1 none none none none none none none 0 []
        = ([], .err "Project not found") ∧
    update_project (some "boom") 1 none none none none none none none 0
        [⟨1, "P", none, "planned", none, none, none, none, none, none,
          none, 0, none⟩]
        = ([⟨1, "P", none, "planned", none, none, none, none, none, none,
          none, 0, none⟩], .err "boom") ∧
    update_portfolio_piece none 1 none none none 0 []
        = ([], .err "Portfolio piece not found") ∧
    update_portfolio_piece (some "boom") 1 none none none 0
        [⟨1, "A", none, none, "wip", none, none, none, none, [], 0,
          none⟩]
        = ([⟨1, "A", none, none, "wip", none, none, none, none, [], 0,
          none⟩], .err "boom") := by
  have h1 := C8_error_uniform_failure "boom" [] [] [] 1 1 1 1 0
    "X".toList none 1
  have h2 := C8_error_uniform_failure "boom" [] [⟨1, "P", none, "planned",
    none, none, none, none, none, none, none, 0, none⟩]
    [⟨1, "A", none, none, "wip", none, none, none, none, [], 0, none⟩]
    1 1 1 1 0 "X".toList none 1
  exact ⟨h1.1, h1.2.1, h1.2.2.1 rfl, h1.2.2.2.1 rfl, h2.2.2.2.2.1 _ rfl,
    h1.2.2.2.2.2.1 rfl, h2.2.2.2.2.2.2 _ rfl⟩

/-- Insertion into the sorted list neither adds nor drops elements. -/
theorem mem_insertSorted (le : Supply → Supply → Bool) (x a : Supply)
    (l : List Supply) :
    a ∈ insertSorted le x l ↔ a = x ∨ a ∈ l := by
  induction l with
  | nil => simp [insertSorted]
  | cons y t ih =>
      simp only [insertSorted]
      split
      · simp [List.mem_cons]
      · rw [List.mem_cons, ih, List.mem_cons]
        tauto

/-- The modelled SQL sort is a permutation membership-wise. -/
theorem mem_sortSupplies (le : Supply → Supply → Bool) (a : Supply)
    (l : List Supply) :
    a ∈ sortSupplies le l ↔ a ∈ l := by
  induction l with
  | nil => simp [sortSupplies]
  | cons x t ih =>
      simp only [sortSupplies]
      rw [mem_insertSorted, ih, List.mem_cons]

/-- C9 counterexample: a supply at quantity 0.3 has status "yellow" (low,
not plenty), yet the low-stock query with the default threshold 0.25 does
not return it — refuting the claimed equivalence between the query and the
status classes. -/
theorem C9_counterexample_low_not_selected :
    Supply.get_status ⟨1, "Ochre".toList, none, some "paint", none, none,
        mkRat 3 10, "tube", none, 0⟩ ≠ "green" ∧
    ¬ ((⟨1, "Ochre".toList, none, some "paint", none, none, mkRat 3 10,
        "tube", none, 0⟩ : Supply) ∈ (get_low_stock_supplies (mkRat 1 4)
        [⟨1, "Ochre".toList, none, some "paint", none, none, mkRat 3 10,
          "tube", none, 0⟩]).1) := by
  decide

/-- C9 amended: the low-stock query selects exactly the supplies with
quantity ≤ threshold (default 0.25, caller-overridable); with the default
threshold every returned supply is classified low or critical (never
plenty), but the converse fails for quantities in (0.25, 0.5). -/
theorem C9_amended_low_stock_selection (threshold : ℚ) (db : List Supply)
    (s : Supply) :
    (s ∈ (get_low_stock_supplies threshold db).1 ↔
      s ∈ db ∧ s.quantity ≤ threshold) ∧
    (s ∈ (get_low_stock_supplies (mkRat 1 4) db).1 →
      s.get_status ≠ "green") := by
  have hiff : ∀ th : ℚ, s ∈ (get_low_stock_supplies th db).1 ↔
      s ∈ db ∧ s.quantity ≤ th := by
    intro th
    simp only [get_low_stock_supplies]
    rw [mem_sortSupplies, List.mem_filter]
    simp
  refine ⟨hiff threshold, fun hmem => ?_⟩
  obtain ⟨-, hq⟩ := (hiff (mkRat 1 4)).mp hmem
  have h2 : ¬ ((mkRat 1 2 : ℚ) ≤ s.quantity) := by
    intro hle
    have h3 : (mkRat 1 4 : ℚ) < mkRat 1 2 := by decide
    exact absurd (le_trans hle hq) (not_le.mpr h3)
  simp only [Supply.get_status, ge_iff_le]
  rw [if_neg h2]
  split
  · decide
  · decide

/-- C9 amended witness: a supply at quantity 0.1 is selected by the query
at the default threshold, and its status is not "green". -/
theorem C9_amended_low_stock_selection_witness :
    ((⟨2, "Ink".toList, none, some "ink", none, none, mkRat 1 10,
        "bottle", none, 0⟩ : Supply) ∈ (get_low_stock_supplies (mkRat 1 4)
        [⟨2, "Ink".toList, none, some "ink", none, none, mkRat 1 10,
          "bottle", none, 0⟩]).1) ∧
    Supply.get_status ⟨2, "Ink".toList, none, some "ink", none, none,
        mkRat 1 10, "bottle", none, 0⟩ ≠ "green" := by
  have h := C9_amended_low_stock_selection (mkRat 1 4)
    [⟨2, "Ink".toList, none, some "ink", none, none, mkRat 1 10,
      "bottle", none, 0⟩]
    ⟨2, "Ink".toList, none, some "ink", none, none, mkRat 1 10,
      "bottle", none, 0⟩
  have hmem := h.1.mpr ⟨by decide, by decide⟩
  exact ⟨hmem, h.2 hmem⟩

end ArtStudio
